import Mathlib

/-!
Shallow embedding of `src/app.py`, a Dash application that maps casino
visitor origins.  Pandas float columns are modelled as `ℚ`, string columns
as `String`, dataframe rows as structures, and the reactive callback
`update_map` as a pure function from the loaded tables and the click
payload to the rendered view (POI opacities, county overlay markers,
summary text).
-/

/-- A row of `df_poi_raw_jan` (the POI table), restricted to the columns the
app reads. -/
structure PointOfInterest where
  placekey : String
  location_name : String
  latitude : ℚ
  longitude : ℚ
  raw_visit_counts : Int
deriving Repr, DecidableEq

/-- A row of `df_visits_small` (columns `placekey, county, NAME, lat, lon,
visits` selected from `df_visits_cnty_geo` at lines 17-19); `visits` is cast
to float (line 22), modelled as `ℚ`. -/
structure VisitorOriginRecord where
  placekey : String
  county : String
  NAME : String
  lat : ℚ
  lon : ℚ
  visits : ℚ
deriving Repr, DecidableEq

/-- `astype(str)` applied to a placekey (lines 13-14, 21 and 111): Python
`str` of a value that is already a string is that string itself — no
whitespace trimming and no case folding happen anywhere in the code. -/
def canonicalPlacekey (s : String) : String := s

/-- The distinct placekeys occurring in the records: the keys produced by
`groupby("placekey")`.  `groupby` emits its groups sorted by key, but the
resulting dict is only ever read through `.get`, so the key order is
irrelevant; we keep dedup order. -/
def groupKeys (records : List VisitorOriginRecord) : List String :=
  (records.map (fun r => canonicalPlacekey r.placekey)).dedup

/-- `visits_by_placekey` (lines 24-27): a dict mapping each placekey present
in the visits table to the sub-dataframe of exactly its rows, in input order
(`groupby` preserves intra-group row order and `reset_index(drop=True)` does
not reorder rows). -/
def visits_by_placekey (records : List VisitorOriginRecord) :
    List (String × List VisitorOriginRecord) :=
  (groupKeys records).map
    (fun pk => (pk, records.filter (fun r => canonicalPlacekey r.placekey == pk)))

/-- Python `dict.get`: `some` value when the key is present, `none`
otherwise (line 116). -/
def dictGet (d : List (String × List VisitorOriginRecord)) (k : String) :
    Option (List VisitorOriginRecord) :=
  (d.find? (fun e => e.1 == k)).map (fun e => e.2)

/-- An opaque Python value, known to the model only through its `str()`
rendering. -/
structure PyObj where
  str : String
deriving Repr, DecidableEq

/-- The `customdata` of a clicked point (line 100): either a list/tuple of
values, or a non-sequence value.  `whole` is the `str()` of the payload
itself (used by the fallback branch at line 107). -/
inductive CustomData where
  | seq (elems : List PyObj) (whole : PyObj)
  | scalar (whole : PyObj)
deriving Repr, DecidableEq

/-- Lines 103-108: extraction of `placekey_clicked` and `raw_visits` from the
`customdata` payload.  A list/tuple with at least one element yields
`(str(cd[0]), cd[1] if len(cd) > 1 else None)`; anything else (including an
empty list/tuple) falls back to `(str(cd), None)`. -/
def parseCustomData : CustomData → String × Option PyObj
  | .seq (x :: rest) _ => (x.str, rest.head?)
  | .seq [] whole => (whole.str, none)
  | .scalar whole => (whole.str, none)

/-- `visits.max()` over a group (line 126); in the callback the group is
always nonempty when this is evaluated. -/
def vmaxOf (grp : List VisitorOriginRecord) : ℚ :=
  ((grp.map (fun r => r.visits)).maximum).unbot' 0

/-- Lines 125-129: county marker sizes — `6 + 18 * (visits / visits.max())`
elementwise when the group's maximum is `> 0`, otherwise the scalar `8`,
which broadcasts to every row of the group. -/
def markerSizes (grp : List VisitorOriginRecord) : List ℚ :=
  if 0 < vmaxOf grp then
    grp.map (fun r => 6 + 18 * (r.visits / vmaxOf grp))
  else
    grp.map (fun _ => 8)

/-- Python `int()` / pandas `astype(int)` applied to a float: truncation
toward zero (lines 144 and 155). -/
def truncQ (q : ℚ) : Int := if q < 0 then ⌈q⌉ else ⌊q⌋

/-- Lines 141-145: the hovertext of one county marker. -/
def countyLabel (r : VisitorOriginRecord) : String :=
  "County: " ++ r.NAME ++ "<br>FIPS: " ++ r.county
    ++ "<br>Visitors: " ++ toString (truncQ r.visits)

/-- One marker of the red "Visitor counties" overlay trace. -/
structure CountyMarker where
  lat : ℚ
  lon : ℚ
  size : ℚ
  hovertext : String
deriving Repr, DecidableEq

/-- Lines 131-147: the `scattermapbox` trace added for the clicked POI's
group — one marker per row, pairing each row with its computed size. -/
def overlayMarkers (grp : List VisitorOriginRecord) : List CountyMarker :=
  (grp.zip (markerSizes grp)).map
    (fun rs => { lat := rs.1.lat, lon := rs.1.lon, size := rs.2,
                 hovertext := countyLabel rs.1 })

/-- f-string rendering of `raw_visits` (Python prints `None` when absent). -/
def rawStr : Option PyObj → String
  | none => "None"
  | some o => o.str

/-- Lines 118-122: the summary text when no county data exists for the
clicked placekey. -/
def noDataInfo (pk : String) (raw : Option PyObj) : String :=
  "Clicked placekey: " ++ pk ++ " (raw_visit_counts=" ++ rawStr raw ++ "). "
    ++ "No county-level visitor data found for this POI."

/-- `tmp["county"].nunique()` (line 154): number of distinct county codes in
the group. -/
def nuniqueCounty (grp : List VisitorOriginRecord) : Nat :=
  ((grp.map (fun r => r.county)).dedup).length

/-- `tmp["visits"].sum()` (line 155). -/
def totalVisits (grp : List VisitorOriginRecord) : ℚ :=
  (grp.map (fun r => r.visits)).sum

/-- Lines 150-156: the summary text when county data was found. -/
def dataInfo (pk : String) (raw : Option PyObj) (grp : List VisitorOriginRecord) :
    String :=
  "Clicked placekey: " ++ pk ++ " (raw_visit_counts=" ++ rawStr raw ++ "). "
    ++ "Matched county rows: " ++ toString grp.length ++ ". "
    ++ "Distinct origin counties: " ++ toString (nuniqueCounty grp)
    ++ ", total visitors in sample: " ++ toString (truncQ (totalVisits grp)) ++ "."

/-- The render payload plus summary string a callback invocation returns: the
POI trace's per-marker opacities, the county overlay markers (empty when no
overlay trace is added), and the text for the `info` div. -/
structure View where
  poiOpacities : List ℚ
  overlay : List CountyMarker
  info : String
deriving Repr, DecidableEq

/-- The static prompt returned before any click (line 97). -/
def promptText : String := "Click a casino to see visitor origin counties."

/-- Lines 92-158: the callback `update_map` as a pure function of the loaded
tables and the click payload.  `fig = go.Figure(base_fig)` (line 94) rebuilds
the figure from the unmutated base figure, whose single POI trace carries
scalar opacity 1.0 (line 53), so with no click every POI is fully opaque and
no overlay trace exists. -/
def update_map (pois : List PointOfInterest) (records : List VisitorOriginRecord)
    (clickData : Option CustomData) : View :=
  match clickData with
  | none =>
    { poiOpacities := pois.map (fun _ => 1), overlay := [], info := promptText }
  | some cd =>
    let pr := parseCustomData cd
    let opacities := pois.map
      (fun p => if canonicalPlacekey p.placekey == pr.1 then (1 : ℚ) else 3/10)
    match dictGet (visits_by_placekey records) pr.1 with
    | none =>
      { poiOpacities := opacities, overlay := [], info := noDataInfo pr.1 pr.2 }
    | some tmp =>
      if tmp.isEmpty then
        { poiOpacities := opacities, overlay := [], info := noDataInfo pr.1 pr.2 }
      else
        { poiOpacities := opacities, overlay := overlayMarkers tmp,
          info := dataInfo pr.1 pr.2 tmp }

/-- The process-wide read-only state built at startup: the two loaded tables
(the index and base figure are derived from them). -/
structure AppState where
  pois : List PointOfInterest
  records : List VisitorOriginRecord
deriving Repr, DecidableEq

/-- One callback invocation seen from the process: the callback only reads
the globals and mutates a fresh copy of the base figure, so the state comes
back unchanged alongside the produced view. -/
def processClick (st : AppState) (clickData : Option CustomData) :
    AppState × View :=
  (st, update_map st.pois st.records clickData)

/-- A session: the views produced by a sequence of click events, threading
the process state through the successive callback invocations. -/
def runClicks (st : AppState) : List (Option CustomData) → List View
  | [] => []
  | c :: cs =>
    let sv := processClick st c
    sv.2 :: runClicks sv.1 cs

/-! ### Helper lemmas about the index -/

/-- `find?` with an equality test finds the key itself exactly when it is
present. -/
lemma find?_beq_eq (k : String) : ∀ l : List String,
    l.find? (fun x => x == k) = if k ∈ l then some k else none
  | [] => by simp
  | a :: t => by
    by_cases hak : a = k
    · subst hak
      simp
    · have hka : ¬k = a := fun h => hak h.symm
      have hb : (a == k) = false := by simp [hak]
      simp [List.find?_cons, hb, hka, find?_beq_eq k t]

/-- Looking a key up in the grouped dict returns exactly the filtered rows
when some row carries the key, and `none` otherwise. -/
lemma dictGet_lookup (records : List VisitorOriginRecord) (k : String) :
    dictGet (visits_by_placekey records) k =
      if k ∈ groupKeys records
      then some (records.filter (fun r => canonicalPlacekey r.placekey == k))
      else none := by
  unfold dictGet visits_by_placekey
  rw [List.find?_map]
  have hcomp :
      ((fun e : String × List VisitorOriginRecord => e.1 == k) ∘
        (fun pk => (pk, records.filter (fun r => canonicalPlacekey r.placekey == pk))))
        = fun pk => pk == k := rfl
  rw [hcomp, find?_beq_eq k (groupKeys records)]
  by_cases hk : k ∈ groupKeys records <;> simp [hk]

/-- A key occurs among the group keys exactly when some record carries it. -/
lemma mem_groupKeys (records : List VisitorOriginRecord) (k : String) :
    k ∈ groupKeys records ↔ ∃ r ∈ records, canonicalPlacekey r.placekey = k := by
  simp [groupKeys]

/-- Membership in a group is exact string equality of the canonical key. -/
lemma mem_group_iff (records : List VisitorOriginRecord) (k : String)
    (r : VisitorOriginRecord) :
    r ∈ records.filter (fun s => canonicalPlacekey s.placekey == k) ↔
      r ∈ records ∧ canonicalPlacekey r.placekey = k := by
  simp [List.mem_filter]

/-- Every visit count in a group is bounded by the group's maximum. -/
lemma le_vmaxOf {grp : List VisitorOriginRecord} {r : VisitorOriginRecord}
    (hr : r ∈ grp) : r.visits ≤ vmaxOf grp := by
  have hmem : r.visits ∈ grp.map (fun s => s.visits) := List.mem_map_of_mem _ hr
  cases h : (grp.map (fun s => s.visits)).maximum with
  | bot =>
    rw [List.maximum_eq_bot] at h
    rw [h] at hmem
    simp at hmem
  | coe m =>
    have hle := List.le_maximum_of_mem hmem h
    have hv : vmaxOf grp = m := by
      simp only [vmaxOf, h, WithBot.unbot'_coe]
    rw [hv]
    exact_mod_cast hle

/-- The length of a group equals the multiplicity of its key among all
records' keys. -/
lemma length_filter_eq_count (records : List VisitorOriginRecord) (pk : String) :
    (records.filter (fun r => canonicalPlacekey r.placekey == pk)).length
      = (records.map (fun r => canonicalPlacekey r.placekey)).count pk := by
  rw [← List.countP_eq_length_filter, List.count, List.countP_map]
  rfl

/-- The group sizes of the dict sum to the number of input records: the
groups partition the visits table. -/
lemma sum_group_lengths (records : List VisitorOriginRecord) :
    ((visits_by_placekey records).map (fun e => e.2.length)).sum
      = records.length := by
  unfold visits_by_placekey
  rw [List.map_map]
  have hfun : ((fun e : String × List VisitorOriginRecord => e.2.length) ∘
      (fun pk => (pk, records.filter (fun r => canonicalPlacekey r.placekey == pk))))
      = fun pk => (records.map (fun r => canonicalPlacekey r.placekey)).count pk := by
    funext pk
    exact length_filter_eq_count records pk
  rw [hfun]
  have hnd : (groupKeys records).Nodup := List.nodup_dedup _
  rw [← List.sum_toFinset _ hnd]
  unfold groupKeys
  have hfs : ((records.map (fun r => canonicalPlacekey r.placekey)).dedup).toFinset
      = (records.map (fun r => canonicalPlacekey r.placekey)).toFinset := by
    ext a
    simp [List.mem_toFinset, List.mem_dedup]
  rw [hfs, List.sum_toFinset_count_eq_length, List.length_map]

/-- A group returned by the dict lookup is never empty: keys exist only for
placekeys that occur in at least one record. -/
lemma group_ne_nil {records : List VisitorOriginRecord} {pk : String}
    {tmp : List VisitorOriginRecord}
    (h : dictGet (visits_by_placekey records) pk = some tmp) : tmp ≠ [] := by
  rw [dictGet_lookup] at h
  by_cases hk : pk ∈ groupKeys records
  · rw [if_pos hk] at h
    obtain ⟨r, hr, hkey⟩ := (mem_groupKeys records pk).mp hk
    have hmem : r ∈ tmp := by
      cases h
      exact (mem_group_iff records pk r).mpr ⟨hr, hkey⟩
    exact List.ne_nil_of_mem hmem
  · rw [if_neg hk] at h
    cases h

/-- The callback's view when the clicked placekey has no indexed rows. -/
lemma update_map_absent (pois : List PointOfInterest)
    (records : List VisitorOriginRecord) (cd : CustomData)
    (h : dictGet (visits_by_placekey records) (parseCustomData cd).1 = none) :
    update_map pois records (some cd) =
      { poiOpacities := pois.map (fun p =>
          if canonicalPlacekey p.placekey == (parseCustomData cd).1
          then (1 : ℚ) else 3/10),
        overlay := [],
        info := noDataInfo (parseCustomData cd).1 (parseCustomData cd).2 } := by
  simp only [update_map, h]

/-- The callback's view when the clicked placekey has indexed rows. -/
lemma update_map_present (pois : List PointOfInterest)
    (records : List VisitorOriginRecord) (cd : CustomData)
    (tmp : List VisitorOriginRecord)
    (h : dictGet (visits_by_placekey records) (parseCustomData cd).1 = some tmp) :
    update_map pois records (some cd) =
      { poiOpacities := pois.map (fun p =>
          if canonicalPlacekey p.placekey == (parseCustomData cd).1
          then (1 : ℚ) else 3/10),
        overlay := overlayMarkers tmp,
        info := dataInfo (parseCustomData cd).1 (parseCustomData cd).2 tmp } := by
  have hne : tmp.isEmpty = false := by
    simp [List.isEmpty_iff, group_ne_nil h]
  simp only [update_map, h, hne, Bool.false_eq_true, if_false]

/-- The clicked-case POI opacities, independently of the lookup's outcome. -/
lemma update_map_opacities (pois : List PointOfInterest)
    (records : List VisitorOriginRecord) (cd : CustomData) :
    (update_map pois records (some cd)).poiOpacities
      = pois.map (fun p =>
          if canonicalPlacekey p.placekey == (parseCustomData cd).1
          then (1 : ℚ) else 3/10) := by
  cases h : dictGet (visits_by_placekey records) (parseCustomData cd).1 with
  | none => rw [update_map_absent pois records cd h]
  | some tmp => rw [update_map_present pois records cd tmp h]

/-- Every marker in the clicked view's overlay is built from a record of the
clicked placekey's group. -/
lemma mem_overlay (pois : List PointOfInterest)
    (records : List VisitorOriginRecord) (cd : CustomData) (m : CountyMarker)
    (hm : m ∈ (update_map pois records (some cd)).overlay) :
    ∃ r ∈ records, canonicalPlacekey r.placekey = (parseCustomData cd).1 ∧
      m.lat = r.lat ∧ m.lon = r.lon ∧ m.hovertext = countyLabel r := by
  cases h : dictGet (visits_by_placekey records) (parseCustomData cd).1 with
  | none =>
    rw [update_map_absent pois records cd h] at hm
    simp at hm
  | some tmp =>
    rw [update_map_present pois records cd tmp h] at hm
    unfold overlayMarkers at hm
    obtain ⟨rs, hrs, hmeq⟩ := List.mem_map.mp hm
    have hr1 : rs.1 ∈ tmp := (List.of_mem_zip hrs).1
    rw [dictGet_lookup] at h
    by_cases hk : (parseCustomData cd).1 ∈ groupKeys records
    · rw [if_pos hk] at h
      have htmp := (Option.some.inj h).symm
      rw [htmp] at hr1
      have hmem := (mem_group_iff records (parseCustomData cd).1 rs.1).mp hr1
      exact ⟨rs.1, hmem.1, hmem.2, by rw [← hmeq], by rw [← hmeq], by rw [← hmeq]⟩
    · rw [if_neg hk] at h
      cases h

/-! ### Sample data used by the witnesses -/

/-- Sample origin record: Los Angeles row of casino `pkA`. -/
def sampleLA : VisitorOriginRecord :=
  { placekey := "pkA", county := "06037", NAME := "Los Angeles",
    lat := 34, lon := -118, visits := 10 }

/-- Sample origin record: San Diego row of casino `pkA`. -/
def sampleSD : VisitorOriginRecord :=
  { placekey := "pkA", county := "06073", NAME := "San Diego",
    lat := 33, lon := -117, visits := 5 }

/-- Sample origin record: San Francisco row of casino `pkA` (zero visits). -/
def sampleSF : VisitorOriginRecord :=
  { placekey := "pkA", county := "06075", NAME := "San Francisco",
    lat := 38, lon := -122, visits := 0 }

/-- Sample origin record: Clark County row of casino `pkB` (fractional
visits). -/
def sampleClark : VisitorOriginRecord :=
  { placekey := "pkB", county := "32003", NAME := "Clark",
    lat := 36, lon := -115, visits := 5/2 }

/-- A small visits table: three rows for `pkA` interleaved with one for
`pkB`. -/
def sampleRecords : List VisitorOriginRecord :=
  [sampleLA, sampleSD, sampleClark, sampleSF]

/-- A small POI table with two casinos. -/
def samplePois : List PointOfInterest :=
  [{ placekey := "pkA", location_name := "Casino A", latitude := 36,
     longitude := -115, raw_visit_counts := 120 },
   { placekey := "pkB", location_name := "Casino B", latitude := 39,
     longitude := -120, raw_visit_counts := 80 }]

/-! ### The claims -/

/-- Claim C3: for every input record collection, the built index maps each
placekey present in it to exactly the records whose placekey canonicalizes
equal to that key, in their input order, and the groups partition the input:
the group sizes sum to the total record count. -/
theorem claim_C3_index_partition (records : List VisitorOriginRecord) :
    (∀ pk grp, dictGet (visits_by_placekey records) pk = some grp →
        grp = records.filter (fun r => canonicalPlacekey r.placekey == pk)) ∧
    (∀ pk, (∃ grp, dictGet (visits_by_placekey records) pk = some grp) ↔
        ∃ r ∈ records, canonicalPlacekey r.placekey = pk) ∧
    ((visits_by_placekey records).map (fun e => e.2.length)).sum
        = records.length := by
  refine ⟨?_, ?_, sum_group_lengths records⟩
  · intro pk grp h
    rw [dictGet_lookup] at h
    by_cases hk : pk ∈ groupKeys records
    · rw [if_pos hk] at h
      exact (Option.some.inj h).symm
    · rw [if_neg hk] at h
      cases h
  · intro pk
    rw [← mem_groupKeys]
    constructor
    · rintro ⟨grp, hg⟩
      by_cases hk : pk ∈ groupKeys records
      · exact hk
      · rw [dictGet_lookup, if_neg hk] at hg
        cases hg
    · intro hk
      exact ⟨_, by rw [dictGet_lookup, if_pos hk]⟩

/-- Witness for C3 at the sample table: the `pkA` group is exactly the three
`pkA` rows in input order, and the group sizes sum to the table length. -/
theorem claim_C3_index_partition_witness :
    ([sampleLA, sampleSD, sampleSF] : List VisitorOriginRecord)
        = sampleRecords.filter (fun r => canonicalPlacekey r.placekey == "pkA") ∧
    ((visits_by_placekey sampleRecords).map (fun e => e.2.length)).sum
        = sampleRecords.length :=
  ⟨(claim_C3_index_partition sampleRecords).1 "pkA" [sampleLA, sampleSD, sampleSF]
      (by decide),
   (claim_C3_index_partition sampleRecords).2.2⟩

/-- Claim C1: for a group obtained from the index, when the group's maximum
visit count is strictly positive every marker size is `6 + 18 * (visits /
v_max)`, all sizes (for non-negative visit counts) lie in `[6, 24]`, and a
record whose visit count equals the maximum gets size exactly 24; when the
maximum is not strictly positive every record gets the fixed fallback size 8,
with no division performed. -/
theorem claim_C1_marker_sizes (records : List VisitorOriginRecord) (pk : String)
    (grp : List VisitorOriginRecord)
    (hlook : dictGet (visits_by_placekey records) pk = some grp)
    (hnn : ∀ r ∈ grp, 0 ≤ r.visits) :
    (0 < vmaxOf grp →
      markerSizes grp = grp.map (fun r => 6 + 18 * (r.visits / vmaxOf grp)) ∧
      (∀ s ∈ markerSizes grp, 6 ≤ s ∧ s ≤ 24) ∧
      (∀ r ∈ grp, r.visits = vmaxOf grp →
        6 + 18 * (r.visits / vmaxOf grp) = 24)) ∧
    (¬ 0 < vmaxOf grp → markerSizes grp = grp.map (fun _ => 8)) := by
  constructor
  · intro hpos
    have hms : markerSizes grp
        = grp.map (fun r => 6 + 18 * (r.visits / vmaxOf grp)) := by
      unfold markerSizes
      rw [if_pos hpos]
    refine ⟨hms, ?_, ?_⟩
    · intro s hs
      rw [hms] at hs
      obtain ⟨r, hr, rfl⟩ := List.mem_map.mp hs
      have h0 : 0 ≤ r.visits := hnn r hr
      have h1 : r.visits ≤ vmaxOf grp := le_vmaxOf hr
      have hd0 : 0 ≤ r.visits / vmaxOf grp := div_nonneg h0 (le_of_lt hpos)
      have hd1 : r.visits / vmaxOf grp ≤ 1 := (div_le_one hpos).mpr h1
      constructor <;> linarith
    · intro r hr heq
      rw [heq, div_self (ne_of_gt hpos)]
      norm_num
  · intro hneg
    unfold markerSizes
    rw [if_neg hneg]

/-- Witness for C1 at the sample `pkA` group (visits 10, 5, 0): the sizes
follow the scaling formula, lie in `[6, 24]`, and evaluate to `[24, 15, 6]`
— the boundary values the spec's example demands. -/
theorem claim_C1_marker_sizes_witness :
    markerSizes [sampleLA, sampleSD, sampleSF]
        = [sampleLA, sampleSD, sampleSF].map
            (fun r => 6 + 18 * (r.visits / vmaxOf [sampleLA, sampleSD, sampleSF])) ∧
    (∀ s ∈ markerSizes [sampleLA, sampleSD, sampleSF], 6 ≤ s ∧ s ≤ 24) ∧
    markerSizes [sampleLA, sampleSD, sampleSF] = [24, 15, 6] := by
  have h := (claim_C1_marker_sizes sampleRecords "pkA" [sampleLA, sampleSD, sampleSF]
      (by decide) (by decide)).1 (by decide)
  refine ⟨h.1, h.2.1, ?_⟩
  have hv : vmaxOf [sampleLA, sampleSD, sampleSF] = 10 := by decide
  unfold markerSizes
  rw [hv]
  norm_num [sampleLA, sampleSD, sampleSF]

/-- Claim C2: on a click, exactly the POIs whose canonical placekey equals
the clicked identifier get opacity 1.0 and all others get exactly 0.3, in
the POI table's original order; with no click every POI keeps opacity 1.0
and no county overlay markers are produced. -/
theorem claim_C2_opacity_partition (pois : List PointOfInterest)
    (records : List VisitorOriginRecord) (cd : CustomData) :
    (update_map pois records (some cd)).poiOpacities
        = pois.map (fun p =>
            if canonicalPlacekey p.placekey == (parseCustomData cd).1
            then (1 : ℚ) else 3/10) ∧
    ((3/10 : ℚ) ≠ 1) ∧
    (update_map pois records none).poiOpacities = pois.map (fun _ => (1 : ℚ)) ∧
    (update_map pois records none).overlay = [] :=
  ⟨update_map_opacities pois records cd, by norm_num, rfl, rfl⟩

/-- Claim C4: a click whose placekey matches no visits row does not fail —
the lookup misses, the overlay is empty, the summary text names the clicked
identifier and says no county-level visitor data was found, and the POI
dimming is still applied.  Groups stored in the index are never empty, so a
missing key is the only no-data case the caller can observe. -/
theorem claim_C4_unknown_poi (pois : List PointOfInterest)
    (records : List VisitorOriginRecord) (cd : CustomData)
    (habs : ∀ r ∈ records, canonicalPlacekey r.placekey ≠ (parseCustomData cd).1) :
    dictGet (visits_by_placekey records) (parseCustomData cd).1 = none ∧
    update_map pois records (some cd) =
      { poiOpacities := pois.map (fun p =>
          if canonicalPlacekey p.placekey == (parseCustomData cd).1
          then (1 : ℚ) else 3/10),
        overlay := [],
        info := "Clicked placekey: " ++ (parseCustomData cd).1
          ++ " (raw_visit_counts=" ++ rawStr (parseCustomData cd).2
          ++ "). No county-level visitor data found for this POI." } ∧
    (∀ pk grp, dictGet (visits_by_placekey records) pk = some grp → grp ≠ []) := by
  have hnone : dictGet (visits_by_placekey records) (parseCustomData cd).1 = none := by
    rw [dictGet_lookup, if_neg]
    intro hk
    obtain ⟨r, hr, hkey⟩ := (mem_groupKeys records _).mp hk
    exact habs r hr hkey
  refine ⟨hnone, ?_, fun pk grp h => group_ne_nil h⟩
  rw [update_map_absent pois records cd hnone]
  have htext : noDataInfo (parseCustomData cd).1 (parseCustomData cd).2
      = "Clicked placekey: " ++ (parseCustomData cd).1
        ++ " (raw_visit_counts=" ++ rawStr (parseCustomData cd).2
        ++ "). No county-level visitor data found for this POI." := by
    simp [noDataInfo, String.append_assoc]
  rw [htext]

/-- Witness for C4: clicking the unknown identifier `XYZ` on the sample
tables misses the index, empties the overlay, reports no data, and dims both
POIs. -/
theorem claim_C4_unknown_poi_witness :
    dictGet (visits_by_placekey sampleRecords)
        (parseCustomData (CustomData.scalar ⟨"XYZ"⟩)).1 = none ∧
    update_map samplePois sampleRecords (some (CustomData.scalar ⟨"XYZ"⟩)) =
      { poiOpacities := samplePois.map (fun p =>
          if canonicalPlacekey p.placekey
              == (parseCustomData (CustomData.scalar ⟨"XYZ"⟩)).1
          then (1 : ℚ) else 3/10),
        overlay := [],
        info := "Clicked placekey: "
          ++ (parseCustomData (CustomData.scalar ⟨"XYZ"⟩)).1
          ++ " (raw_visit_counts="
          ++ rawStr (parseCustomData (CustomData.scalar ⟨"XYZ"⟩)).2
          ++ "). No county-level visitor data found for this POI." } ∧
    (∀ pk grp, dictGet (visits_by_placekey sampleRecords) pk = some grp →
        grp ≠ []) :=
  claim_C4_unknown_poi samplePois sampleRecords (CustomData.scalar ⟨"XYZ"⟩)
    (by decide)

/-- Sample record whose placekey is lower case. -/
def caseRecLower : VisitorOriginRecord :=
  { placekey := "abc", county := "01001", NAME := "Autauga",
    lat := 32, lon := -86, visits := 1 }

/-- Sample record whose placekey differs from `caseRecLower` only in case. -/
def caseRecUpper : VisitorOriginRecord :=
  { placekey := "ABC", county := "01003", NAME := "Baldwin",
    lat := 30, lon := -87, visits := 2 }

/-- Counterexample to claim C5: the code canonicalizes placekeys only by
string conversion — no trimming, no case folding — so `abc` and `ABC` land
in different groups, and a click on `ABC` leaves a POI stored as `abc`
dimmed at opacity 0.3 rather than matched. -/
theorem claim_C5_counterexample :
    canonicalPlacekey " abc " = " abc " ∧
    canonicalPlacekey "ABC" = "ABC" ∧
    dictGet (visits_by_placekey [caseRecLower, caseRecUpper]) "abc"
        = some [caseRecLower] ∧
    dictGet (visits_by_placekey [caseRecLower, caseRecUpper]) "ABC"
        = some [caseRecUpper] ∧
    caseRecUpper ∉ ([caseRecLower] : List VisitorOriginRecord) ∧
    (update_map
        [{ placekey := "abc", location_name := "Casino L", latitude := 0,
           longitude := 0, raw_visit_counts := 1 }]
        [caseRecLower, caseRecUpper]
        (some (CustomData.scalar ⟨"ABC"⟩))).poiOpacities = [3/10] := by
  refine ⟨rfl, rfl, by decide, by decide, by decide, ?_⟩
  rw [update_map_opacities]
  simp [canonicalPlacekey, parseCustomData]

/-- Claim C5 (amended): placekeys are canonicalized only by string
conversion, which is the identity on strings; two records land in a common
group of the index exactly when their placekeys are equal as exact strings
— not merely equal up to whitespace or case. -/
theorem claim_C5_exact_string_grouping (records : List VisitorOriginRecord)
    (r1 r2 : VisitorOriginRecord) (h1 : r1 ∈ records) (h2 : r2 ∈ records) :
    (∃ pk grp, dictGet (visits_by_placekey records) pk = some grp ∧
        r1 ∈ grp ∧ r2 ∈ grp) ↔
      canonicalPlacekey r1.placekey = canonicalPlacekey r2.placekey := by
  constructor
  · rintro ⟨pk, grp, hg, hr1, hr2⟩
    rw [dictGet_lookup] at hg
    by_cases hk : pk ∈ groupKeys records
    · rw [if_pos hk] at hg
      cases hg
      have e1 := (mem_group_iff records pk r1).mp hr1
      have e2 := (mem_group_iff records pk r2).mp hr2
      rw [e1.2, e2.2]
    · rw [if_neg hk] at hg
      cases hg
  · intro heq
    refine ⟨canonicalPlacekey r1.placekey,
      records.filter
        (fun r => canonicalPlacekey r.placekey == canonicalPlacekey r1.placekey),
      ?_, ?_, ?_⟩
    · rw [dictGet_lookup, if_pos]
      exact (mem_groupKeys records _).mpr ⟨r1, h1, rfl⟩
    · exact (mem_group_iff records _ r1).mpr ⟨h1, rfl⟩
    · exact (mem_group_iff records _ r2).mpr ⟨h2, heq.symm⟩

/-- Witness for the amended C5: the two sample `pkA` rows share a group, and
exact string equality of their placekeys is what that is equivalent to. -/
theorem claim_C5_exact_string_grouping_witness :
    (∃ pk grp, dictGet (visits_by_placekey sampleRecords) pk = some grp ∧
        sampleLA ∈ grp ∧ sampleSD ∈ grp) ↔
      canonicalPlacekey sampleLA.placekey = canonicalPlacekey sampleSD.placekey :=
  claim_C5_exact_string_grouping sampleRecords sampleLA sampleSD
    (by decide) (by decide)

/-- Claim C6: a list/tuple `customdata` with at least one element yields the
first element's string form as the identifier and the second element (when
present) as the raw count; a one-element tuple yields no raw count; a
non-sequence payload yields its own string form and no raw count.  Every
payload shape is accepted. -/
theorem claim_C6_click_payload_shapes (x second : PyObj) (rest : List PyObj)
    (whole : PyObj) :
    parseCustomData (CustomData.seq (x :: rest) whole) = (x.str, rest.head?) ∧
    parseCustomData (CustomData.seq [x] whole) = (x.str, none) ∧
    parseCustomData (CustomData.seq (x :: second :: rest) whole)
        = (x.str, some second) ∧
    parseCustomData (CustomData.scalar whole) = (whole.str, none) :=
  ⟨rfl, rfl, rfl, rfl⟩

/-- Claim C7: the callback is deterministic and side-effect free — an
invocation returns the process state unchanged, and re-invoking it on the
returned state with the identical click yields the identical view. -/
theorem claim_C7_pure_callback (st : AppState) (clickData : Option CustomData) :
    (processClick st clickData).1 = st ∧
    (processClick (processClick st clickData).1 clickData).2
      = (processClick st clickData).2 :=
  ⟨rfl, rfl⟩

/-- Claim C8: each click fully replaces the prior selection — a two-click
session produces exactly the views of the second click's own computation,
and when the two clicks name different placekeys every overlay marker of the
final view comes from a record of the second placekey's group, never from
the first selection's group. -/
theorem claim_C8_selection_replacement (st : AppState) (cd1 cd2 : CustomData)
    (hne : (parseCustomData cd1).1 ≠ (parseCustomData cd2).1) :
    runClicks st [some cd1, some cd2]
        = [update_map st.pois st.records (some cd1),
           update_map st.pois st.records (some cd2)] ∧
    (∀ m ∈ (update_map st.pois st.records (some cd2)).overlay,
      ∃ r ∈ st.records,
        canonicalPlacekey r.placekey = (parseCustomData cd2).1 ∧
        canonicalPlacekey r.placekey ≠ (parseCustomData cd1).1 ∧
        m.lat = r.lat ∧ m.lon = r.lon ∧ m.hovertext = countyLabel r) := by
  refine ⟨rfl, ?_⟩
  intro m hm
  obtain ⟨r, hr, hkey, hlat, hlon, htext⟩ :=
    mem_overlay st.pois st.records cd2 m hm
  refine ⟨r, hr, hkey, ?_, hlat, hlon, htext⟩
  rw [hkey]
  exact hne.symm

/-- Witness for C8: clicking `pkA` then `pkB` on the sample tables replays
as two independent views, and every final overlay marker stems from `pkB`'s
group. -/
theorem claim_C8_selection_replacement_witness :
    runClicks { pois := samplePois, records := sampleRecords }
        [some (CustomData.scalar ⟨"pkA"⟩), some (CustomData.scalar ⟨"pkB"⟩)]
      = [update_map samplePois sampleRecords (some (CustomData.scalar ⟨"pkA"⟩)),
         update_map samplePois sampleRecords (some (CustomData.scalar ⟨"pkB"⟩))] :=
  (claim_C8_selection_replacement
    { pois := samplePois, records := sampleRecords }
    (CustomData.scalar ⟨"pkA"⟩) (CustomData.scalar ⟨"pkB"⟩) (by decide)).1

/-- Claim C9: the summary text is the static prompt when nothing is
selected; after a click with indexed data it names the clicked identifier,
the raw visitor count carried by the click, the number of matched rows, the
number of distinct counties, and the group's visit total rendered as a whole
number. -/
theorem claim_C9_summary_text (pois : List PointOfInterest)
    (records : List VisitorOriginRecord) (cd : CustomData)
    (grp : List VisitorOriginRecord)
    (hlook : dictGet (visits_by_placekey records) (parseCustomData cd).1
        = some grp) :
    (update_map pois records none).info
        = "Click a casino to see visitor origin counties." ∧
    (update_map pois records (some cd)).info
        = "Clicked placekey: " ++ (parseCustomData cd).1
          ++ " (raw_visit_counts=" ++ rawStr (parseCustomData cd).2 ++ "). "
          ++ "Matched county rows: " ++ toString grp.length ++ ". "
          ++ "Distinct origin counties: "
          ++ toString ((grp.map (fun r => r.county)).dedup.length)
          ++ ", total visitors in sample: "
          ++ toString (truncQ ((grp.map (fun r => r.visits)).sum)) ++ "." := by
  refine ⟨rfl, ?_⟩
  rw [update_map_present pois records cd grp hlook]
  rfl

/-- Witness for C9: clicking `pkA` on the sample tables, with the raw count
120 carried in the tuple payload, produces the summary for its three-row
group. -/
theorem claim_C9_summary_text_witness :
    (update_map samplePois sampleRecords none).info
        = "Click a casino to see visitor origin counties." ∧
    (update_map samplePois sampleRecords
        (some (CustomData.seq [⟨"pkA"⟩, ⟨"120"⟩] ⟨"('pkA', 120)"⟩))).info
        = "Clicked placekey: "
          ++ (parseCustomData (CustomData.seq [⟨"pkA"⟩, ⟨"120"⟩] ⟨"('pkA', 120)"⟩)).1
          ++ " (raw_visit_counts="
          ++ rawStr (parseCustomData
              (CustomData.seq [⟨"pkA"⟩, ⟨"120"⟩] ⟨"('pkA', 120)"⟩)).2 ++ "). "
          ++ "Matched county rows: "
          ++ toString ([sampleLA, sampleSD, sampleSF] : List VisitorOriginRecord).length ++ ". "
          ++ "Distinct origin counties: "
          ++ toString (([sampleLA, sampleSD, sampleSF].map (fun r => r.county)).dedup.length)
          ++ ", total visitors in sample: "
          ++ toString (truncQ (([sampleLA, sampleSD, sampleSF].map (fun r => r.visits)).sum))
          ++ "." :=
  claim_C9_summary_text samplePois sampleRecords
    (CustomData.seq [⟨"pkA"⟩, ⟨"120"⟩] ⟨"('pkA', 120)"⟩)
    [sampleLA, sampleSD, sampleSF] (by decide)

/-- Claim C10: the whole-number renderings use integer conversion, which
truncates toward zero: a county label shows `floor(visits)` whenever the
visit count is non-negative, the summary total is the truncation of the
group's sum, and on the fractional value 2.7 the code's conversion yields 2
where rounding to the nearest integer would yield 3 (and on -2.7 it yields
-2 where the floor is -3). -/
theorem claim_C10_truncation (r : VisitorOriginRecord) (pk : String)
    (raw : Option PyObj) (grp : List VisitorOriginRecord)
    (hr : 0 ≤ r.visits) :
    countyLabel r = "County: " ++ r.NAME ++ "<br>FIPS: " ++ r.county
        ++ "<br>Visitors: " ++ toString ⌊r.visits⌋ ∧
    (∃ pre : String, dataInfo pk raw grp
        = pre ++ toString (truncQ (totalVisits grp)) ++ ".") ∧
    truncQ (27/10) = 2 ∧ round ((27:ℚ)/10) = 3 ∧
    truncQ (-(27/10)) = -2 ∧ ⌊(-((27:ℚ)/10))⌋ = -3 := by
  refine ⟨?_, ?_, ?_, ?_, ?_, ?_⟩
  · unfold countyLabel truncQ
    rw [if_neg (not_lt.mpr hr)]
  · exact ⟨"Clicked placekey: " ++ pk ++ " (raw_visit_counts=" ++ rawStr raw
      ++ "). " ++ "Matched county rows: " ++ toString grp.length ++ ". "
      ++ "Distinct origin counties: " ++ toString (nuniqueCounty grp)
      ++ ", total visitors in sample: ", rfl⟩
  · unfold truncQ
    rw [if_neg (by norm_num)]
    norm_num [Int.floor_eq_iff]
  · rw [round_eq]
    norm_num [Int.floor_eq_iff]
  · unfold truncQ
    rw [if_pos (by norm_num)]
    norm_num [Int.ceil_eq_iff]
  · norm_num [Int.floor_eq_iff]

/-- Witness for C10 at the fractional sample record (visits 2.5): its label
shows the floor, and the sample's summary total is the truncated sum. -/
theorem claim_C10_truncation_witness :
    countyLabel sampleClark = "County: " ++ sampleClark.NAME ++ "<br>FIPS: "
        ++ sampleClark.county ++ "<br>Visitors: " ++ toString ⌊sampleClark.visits⌋ ∧
    (∃ pre : String, dataInfo "pkB" none [sampleClark]
        = pre ++ toString (truncQ (totalVisits [sampleClark])) ++ ".") ∧
    truncQ (27/10) = 2 ∧ round ((27:ℚ)/10) = 3 ∧
    truncQ (-(27/10)) = -2 ∧ ⌊(-((27:ℚ)/10))⌋ = -3 :=
  claim_C10_truncation sampleClark "pkB" none [sampleClark] (by norm_num [sampleClark])
